import Mathlib

/-!
# Verification of the FrontendSG real-time audio client (src/index.tsx)

Shallow embedding of the `PromptDj` component's core logic: the audio-chunk
scheduler, the playback state machine, the prompt payload computation, the
sequencer-prompt generator, and the generic `throttle` wrapper.

Conventions of the embedding:
* Clock times and audio durations are rationals (the source uses JS doubles
  only through `+`, `<`, `=` comparisons on exact values, so ℚ is faithful
  for the control flow verified here).
* `decodeAudioData` / `decode` live in `./utils` (outside `src/`); the
  scheduling logic uses only the decoded buffer's duration, so a chunk is
  embedded as its decoded duration.  The scheduler state records each
  `source.start(t)` call as a `(start, duration)` pair in `scheduled`.
* The Web Audio gain automation calls are recorded as the last
  `setValueAtTime` value and the last `linearRampToValueAtTime` target on
  the current output node; replacing the output node (in `pauseAudio`)
  increments `outputNodeGen`.
* `setTimeout(() => playbackState = 'playing', ...)` registrations are
  counted in `pendingPlayTimers`; a timer firing is an explicit event
  (the source never cancels these timers).
* `connectToSession` only replaces the session handle; we record it by
  incrementing `sessionGen`.  A rejected `setWeightedPrompts` promise is
  the `sendFail` event (its catch handler runs a toast and `pauseAudio`).
-/

namespace FrontendSG

/-- Playback states of the component (`type PlaybackState`, src line 31). -/
inductive PlaybackState where
  | stopped
  | playing
  | loading
  | paused
deriving DecidableEq, Repr

/-- `interface Prompt` (src lines 24-29). Weight is ℚ (JS number). -/
structure Prompt where
  promptId : String
  color : String
  text : String
  weight : ℚ
deriving DecidableEq, Repr

/-- `e.filteredPrompt` payload: `{text, filteredReason}`. -/
structure FilteredPromptMsg where
  text : String
  filteredReason : String
deriving DecidableEq, Repr

/-- One entry of `serverContent.audioChunks`: embedded as the duration of
the buffer its base64 data decodes to (decoding itself happens in
`./utils` and only the duration feeds back into the scheduler). -/
structure Chunk where
  duration : ℚ
deriving DecidableEq, Repr

/-- `LiveMusicServerMessage` as consumed by `onmessage` (src lines 1704-1745):
optional `setupComplete`, optional `filteredPrompt`, optional
`serverContent.audioChunks`. -/
structure ServerMessage where
  setupComplete : Bool
  filteredPrompt : Option FilteredPromptMsg
  audioChunks : Option (List Chunk)
deriving DecidableEq, Repr

/-- The observable state of the `PromptDj` component (fields declared at
src lines 1652-1668 plus the bookkeeping described in the file header). -/
structure AppState where
  playbackState : PlaybackState
  nextStartTime : ℚ
  scheduled : List (ℚ × ℚ)
  pendingPlayTimers : Nat
  filteredPrompts : List String
  connectionError : Bool
  prompts : List Prompt
  sequencerGrid : List (List Nat)
  sequencerWeight : ℚ
  gainSetValue : ℚ
  gainRampTarget : ℚ
  outputNodeGen : Nat
  sessionGen : Nat
  toasts : List String
deriving DecidableEq, Repr

/-- `private readonly bufferTime = 2` (src line 1660). -/
def bufferTime : ℚ := 2

/-- `pauseAudio` (src lines 1900-1911): `session.pause()`, state `paused`,
gain set to 1 then ramped to 0, cursor reset, output node replaced. -/
def pauseAudio (s : AppState) : AppState :=
  { s with
    playbackState := .paused
    gainSetValue := 1
    gainRampTarget := 0
    nextStartTime := 0
    outputNodeGen := s.outputNodeGen + 1 }

/-- `loadAudio` (src lines 1913-1922): `session.play()`, state `loading`,
gain set to 0 then ramped to 1. -/
def loadAudio (s : AppState) : AppState :=
  { s with
    playbackState := .loading
    gainSetValue := 0
    gainRampTarget := 1 }

/-- `stopAudio` (src lines 1924-1933): `session.stop()`, state `stopped`,
`gain.setValueAtTime(0, now)` then `gain.linearRampToValueAtTime(1, now+0.1)`
(the ramp target in the source is 1, not 0), cursor reset. -/
def stopAudio (s : AppState) : AppState :=
  { s with
    playbackState := .stopped
    gainSetValue := 0
    gainRampTarget := 1
    nextStartTime := 0 }

/-- The audio-chunk scheduling block of `onmessage` (src lines 1726-1744),
run after the paused/stopped guard with the decoded buffer duration `dur`
and the current `audioContext.currentTime` `t`. -/
def processChunk (dur t : ℚ) (s : AppState) : AppState :=
  let s :=
    if s.nextStartTime = 0 then
      { s with
        nextStartTime := t + bufferTime
        pendingPlayTimers := s.pendingPlayTimers + 1 }
    else s
  if s.nextStartTime < t then
    { s with playbackState := .loading, nextStartTime := 0 }
  else
    { s with
      scheduled := s.scheduled ++ [(s.nextStartTime, dur)]
      nextStartTime := s.nextStartTime + dur }

/-- Fold `processChunk` over a list of `(arrivalTime, duration)` chunk
events, in arrival order. -/
def processChunks : List (ℚ × ℚ) → AppState → AppState
  | [], s => s
  | (t, d) :: rest, s => processChunks rest (processChunk d t s)

/-- The `if (e.setupComplete)` block of `onmessage` (src lines 1704-1706). -/
def applySetup (m : ServerMessage) (s : AppState) : AppState :=
  if m.setupComplete then { s with connectionError := false } else s

/-- The `if (e.filteredPrompt)` block of `onmessage` (src lines 1707-1713):
`filteredPrompts = new Set([...filteredPrompts, text])` plus a toast with
the server's reason. -/
def applyFiltered (m : ServerMessage) (s : AppState) : AppState :=
  match m.filteredPrompt with
  | some fp =>
      { s with
        filteredPrompts := s.filteredPrompts.insert fp.text
        toasts := fp.filteredReason :: s.toasts }
  | none => s

/-- The `if (e.serverContent?.audioChunks !== undefined)` block of
`onmessage` (src lines 1714-1745): chunks are dropped when paused or
stopped, otherwise only `audioChunks[0]` is decoded and scheduled. -/
def applyChunks (m : ServerMessage) (t : ℚ) (s : AppState) : AppState :=
  match m.audioChunks with
  | none => s
  | some chunks =>
      if s.playbackState = .paused ∨ s.playbackState = .stopped then s
      else
        match chunks with
        | [] => s
        | c :: _ => processChunk c.duration t s

/-- The `onmessage` callback (src lines 1701-1746) at clock time `t`: its
three blocks run in sequence on the component state. -/
def handleMessage (m : ServerMessage) (t : ℚ) (s : AppState) : AppState :=
  applyChunks m t (applyFiltered m (applySetup m s))

/-- The `onerror`/`onclose` callbacks (src lines 1747-1758): set
`connectionError`, run `stopAudio`, toast the connection-error message.
No reconnect is attempted (`sessionGen` is untouched). -/
def handleErrorClose (s : AppState) : AppState :=
  let s1 := { s with connectionError := true }
  let s2 := stopAudio s1
  { s2 with toasts := "Connection error, please restart audio." :: s2.toasts }

/-- `handlePlayPause` (src lines 1882-1898).  From `paused`/`stopped` with
`connectionError` set, `connectToSession` runs first (session handle
replaced: `sessionGen + 1`; nothing else in the component state is reset). -/
def handlePlayPause (s : AppState) : AppState :=
  if s.playbackState = .playing then
    pauseAudio s
  else if s.playbackState = .paused ∨ s.playbackState = .stopped then
    loadAudio (if s.connectionError then { s with sessionGen := s.sessionGen + 1 } else s)
  else
    stopAudio s

/-- External events the component reacts to: server messages (with the
audio clock reading at arrival), session error/close, the play/pause
button, a pending `setTimeout` to `playing` firing, a rejected
`setWeightedPrompts` promise, and the UI mutation handlers. -/
inductive Event where
  | message (m : ServerMessage) (t : ℚ)
  | sessionError
  | sessionClose
  | playPause
  | timerFire
  | sendFail (msg : String)
  | promptChanged (id text : String) (w : ℚ)
  | promptRemoved (id : String)
  | promptAdded (id text color : String)
  | sequencerChanged (grid : List (List Nat)) (w : ℚ)
deriving DecidableEq, Repr

/-- One step of the event-driven component: dispatch an event to the
corresponding handler from src/index.tsx. `timerFire` is the body of the
`setTimeout` at src lines 1732-1734 (fires only if one is pending);
`sendFail` is the catch block of `setSessionPrompts` (src lines 1809-1812);
the prompt/sequencer events are `handlePromptChanged`,
`handlePromptRemoved`, `handleAddPrompt`, `handleSequencerChange`. -/
def step : Event → AppState → AppState
  | .message m t, s => handleMessage m t s
  | .sessionError, s => handleErrorClose s
  | .sessionClose, s => handleErrorClose s
  | .playPause, s => handlePlayPause s
  | .timerFire, s =>
      if s.pendingPlayTimers = 0 then s
      else
        { s with
          playbackState := .playing
          pendingPlayTimers := s.pendingPlayTimers - 1 }
  | .sendFail msg, s => pauseAudio { s with toasts := msg :: s.toasts }
  | .promptChanged id text w, s =>
      if s.prompts.any (fun p => p.promptId == id) then
        { s with
          prompts := s.prompts.map fun p =>
            if p.promptId == id then { p with text := text, weight := w } else p }
      else s
  | .promptRemoved id, s =>
      if s.prompts.any (fun p => p.promptId == id) then
        { s with prompts := s.prompts.filter fun p => !(p.promptId == id) }
      else s
  | .promptAdded id text color, s =>
      { s with prompts := s.prompts ++ [{ promptId := id, color := color, text := text, weight := 0 }] }
  | .sequencerChanged grid w, s =>
      { s with sequencerGrid := grid, sequencerWeight := w }

/-- Component state right after construction (src lines 1652-1680): state
`stopped`, cursor 0, empty filtered set, `connectionError = true`, a fresh
6×16 all-zero sequencer grid with weight 0, fresh gain node (value 1). -/
def initState : AppState :=
  { playbackState := .stopped
    nextStartTime := 0
    scheduled := []
    pendingPlayTimers := 0
    filteredPrompts := []
    connectionError := true
    prompts := []
    sequencerGrid := List.replicate 6 (List.replicate 16 0)
    sequencerWeight := 0
    gainSetValue := 1
    gainRampTarget := 1
    outputNodeGen := 0
    sessionGen := 0
    toasts := [] }

/-- Run a list of events from a state, first event first. -/
def run (es : List Event) (s : AppState) : AppState :=
  es.foldl (fun s e => step e s) s

/-- The instrument names of `generateSequencerPrompt` (src lines 1769-1776). -/
def instruments : List String :=
  ["kick drum", "snare drum", "clap", "closed hi-hat", "open hi-hat", "toms"]

/-- `track.some((step) => step === 1)` (src line 1779). -/
def trackActive (tr : List Nat) : Bool :=
  tr.any fun st => st == 1

/-- The clause appended for active track `i`:
``It features a prominent ${instruments[i]}. `` (src line 1781; a JS
out-of-range index interpolates as `undefined`). -/
def clause (i : Nat) : String :=
  "It features a prominent " ++ instruments.getD i "undefined" ++ ". "

/-- The `forEach` accumulation of `generateSequencerPrompt` (src lines
1777-1784): walk the tracks with their indices, appending a clause and
counting each track that has a note. -/
def seqDescAux : List (List Nat) → Nat → String → Nat → String × Nat
  | [], _, d, c => (d, c)
  | tr :: rest, i, d, c =>
      if trackActive tr then seqDescAux rest (i + 1) (d ++ clause i) (c + 1)
      else seqDescAux rest (i + 1) d c

/-- `generateSequencerPrompt` (src lines 1763-1788): empty string when the
weight is 0 or no track has an active step, otherwise the preamble plus one
clause per active track. -/
def generateSequencerPrompt (grid : List (List Nat)) (w : ℚ) : String :=
  if w = 0 then ""
  else
    let r := seqDescAux grid 0 "A brutal heavy bass and percussion track. " 0
    if r.2 = 0 then "" else r.1

/-- Specification form of the clause text: the concatenation, in track
order starting at index `i`, of one clause per track with an active step
(this is what `seqDescAux` is proved to compute). -/
def activeClauses : List (List Nat) → Nat → String
  | [], _ => ""
  | tr :: rest, i =>
      (if trackActive tr then clause i else "") ++ activeClauses rest (i + 1)

/-- The filter of `setSessionPrompts` (src lines 1791-1793): keep prompts
whose text is not filtered and whose weight is non-zero. -/
def promptsToSend (prompts : List Prompt) (filtered : List String) : List Prompt :=
  prompts.filter fun p => !(filtered.contains p.text) && decide (p.weight ≠ 0)

/-- The conditional push of the synthetic sequencer prompt (src lines
1795-1803): appended when the generated text is non-empty (JS truthiness)
and the sequencer weight is positive. -/
def sequencerPart (grid : List (List Nat)) (w : ℚ) : List Prompt :=
  let txt := generateSequencerPrompt grid w
  if txt ≠ "" ∧ 0 < w then
    [{ promptId := "prompt-sequencer", color := "#ff0044", text := txt, weight := w }]
  else []

/-- The full `weightedPrompts` payload assembled by `setSessionPrompts`
(src lines 1790-1808). -/
def payloadOf (s : AppState) : List Prompt :=
  promptsToSend s.prompts s.filteredPrompts ++ sequencerPart s.sequencerGrid s.sequencerWeight

/-- The `throttle` combinator (src lines 34-44), run over a trace of calls
`(Date.now(), args)` with the closed-over `lastCall` threaded through;
returns the calls that reached the wrapped function. -/
def throttleFold (delay : ℤ) : List (ℤ × α) → ℤ → List (ℤ × α)
  | [], _ => []
  | (now, a) :: rest, lastCall =>
      if delay ≤ now - lastCall then (now, a) :: throttleFold delay rest now
      else throttleFold delay rest lastCall

/-- `throttle(func, delay)` applied to a call trace, starting from the
initial `lastCall = 0` (src line 35). -/
def throttleRun (delay : ℤ) (calls : List (ℤ × α)) : List (ℤ × α) :=
  throttleFold delay calls 0

/-- Back-to-back schedule: interval `i` starts where interval `i - 1`
ends, starting from anchor `a`. -/
def backToBack (a : ℚ) : List ℚ → List (ℚ × ℚ)
  | [] => []
  | d :: ds => (a, d) :: backToBack (a + d) ds

/-- No underrun along a chunk trace whose cursor starts at `a`: each chunk
arrives no later than the cursor position current when it is processed. -/
def noUnderrunFrom (a : ℚ) : List (ℚ × ℚ) → Prop
  | [] => True
  | (t, d) :: rest => t ≤ a ∧ noUnderrunFrom (a + d) rest

/-- A 6×16 grid with only the kick-drum track (track 0) carrying a note. -/
def seqGridKick : List (List Nat) :=
  (1 :: List.replicate 15 0) :: List.replicate 5 (List.replicate 16 0)

/-- A component state in which the server has already flagged one prompt
text, playback is stopped, and the connection is marked broken. -/
def flaggedState : AppState :=
  { initState with filteredPrompts := ["loud noises"] }

/-! ## Basic lemmas about the message pre-processing blocks -/

theorem applySetup_playbackState (m : ServerMessage) (s : AppState) :
    (applySetup m s).playbackState = s.playbackState := by
  unfold applySetup; split <;> rfl

theorem applySetup_nextStartTime (m : ServerMessage) (s : AppState) :
    (applySetup m s).nextStartTime = s.nextStartTime := by
  unfold applySetup; split <;> rfl

theorem applySetup_scheduled (m : ServerMessage) (s : AppState) :
    (applySetup m s).scheduled = s.scheduled := by
  unfold applySetup; split <;> rfl

theorem applyFiltered_playbackState (m : ServerMessage) (s : AppState) :
    (applyFiltered m s).playbackState = s.playbackState := by
  unfold applyFiltered; split <;> rfl

theorem applyFiltered_nextStartTime (m : ServerMessage) (s : AppState) :
    (applyFiltered m s).nextStartTime = s.nextStartTime := by
  unfold applyFiltered; split <;> rfl

theorem applyFiltered_scheduled (m : ServerMessage) (s : AppState) :
    (applyFiltered m s).scheduled = s.scheduled := by
  unfold applyFiltered; split <;> rfl

/-- The underrun branch of the scheduler (src lines 1737-1742): with an
anchored cursor strictly behind the clock, the chunk is not scheduled, the
state moves to `loading` and the cursor resets. -/
theorem processChunk_underrun (dur t : ℚ) (s : AppState)
    (hnz : s.nextStartTime ≠ 0) (hlt : s.nextStartTime < t) :
    processChunk dur t s =
      { s with playbackState := .loading, nextStartTime := 0 } := by
  unfold processChunk
  simp only [if_neg hnz, if_pos hlt]

/-- The normal scheduling branch (src lines 1743-1744): with an anchored
cursor not behind the clock, the buffer starts at the cursor and the cursor
advances by its duration. -/
theorem processChunk_schedule (dur t : ℚ) (s : AppState)
    (hnz : s.nextStartTime ≠ 0) (hge : ¬ s.nextStartTime < t) :
    processChunk dur t s =
      { s with
        scheduled := s.scheduled ++ [(s.nextStartTime, dur)]
        nextStartTime := s.nextStartTime + dur } := by
  unfold processChunk
  simp only [if_neg hnz, if_neg hge]

/-- While paused or stopped, the chunk block is a no-op (src lines
1715-1719). -/
theorem applyChunks_inactive (m : ServerMessage) (t : ℚ) (s : AppState)
    (h : s.playbackState = .paused ∨ s.playbackState = .stopped) :
    applyChunks m t s = s := by
  unfold applyChunks
  cases hm : m.audioChunks with
  | none => rfl
  | some chunks => exact if_pos h

/-- With a non-empty chunk list and an active playback state, the chunk
block is `processChunk` on the head chunk. -/
theorem applyChunks_cons (m : ServerMessage) (t : ℚ) (s : AppState)
    (c : Chunk) (rest : List Chunk) (hc : m.audioChunks = some (c :: rest))
    (hguard : ¬ (s.playbackState = .paused ∨ s.playbackState = .stopped)) :
    applyChunks m t s = processChunk c.duration t s := by
  unfold applyChunks
  rw [hc]
  exact if_neg hguard

theorem handleMessage_playbackState_eq (m : ServerMessage) (s : AppState) :
    (applyFiltered m (applySetup m s)).playbackState = s.playbackState := by
  rw [applyFiltered_playbackState, applySetup_playbackState]

theorem handleMessage_nextStartTime_eq (m : ServerMessage) (s : AppState) :
    (applyFiltered m (applySetup m s)).nextStartTime = s.nextStartTime := by
  rw [applyFiltered_nextStartTime, applySetup_nextStartTime]

theorem handleMessage_scheduled_eq (m : ServerMessage) (s : AppState) :
    (applyFiltered m (applySetup m s)).scheduled = s.scheduled := by
  rw [applyFiltered_scheduled, applySetup_scheduled]

/-! ## Claim theorems -/

/-- C1: an audio-chunk message processed while `nextStartTime` is non-zero
and strictly less than the audio-clock time (an underrun) sets
`playbackState` to `loading`, resets `nextStartTime` to 0, and does not
schedule that chunk's buffer. -/
theorem C1_underrun_resets_cursor_and_drops_chunk
    (m : ServerMessage) (t : ℚ) (s : AppState) (c : Chunk) (rest : List Chunk)
    (hc : m.audioChunks = some (c :: rest))
    (hactive : s.playbackState = .playing ∨ s.playbackState = .loading)
    (hnz : s.nextStartTime ≠ 0) (hlt : s.nextStartTime < t) :
    (handleMessage m t s).playbackState = .loading ∧
    (handleMessage m t s).nextStartTime = 0 ∧
    (handleMessage m t s).scheduled = s.scheduled := by
  have hps := handleMessage_playbackState_eq m s
  have hns := handleMessage_nextStartTime_eq m s
  have hsc := handleMessage_scheduled_eq m s
  have hguard : ¬ ((applyFiltered m (applySetup m s)).playbackState = .paused ∨
      (applyFiltered m (applySetup m s)).playbackState = .stopped) := by
    rw [hps]
    rcases hactive with h | h <;> rw [h] <;> simp
  unfold handleMessage
  rw [applyChunks_cons m t _ c rest hc hguard,
    processChunk_underrun c.duration t _ (by rw [hns]; exact hnz) (by rw [hns]; exact hlt)]
  exact ⟨rfl, rfl, hsc⟩

/-- C1 witness: a concrete underrun (cursor at 3, clock at 5). -/
theorem C1_witness :
    (handleMessage ⟨false, none, some [⟨1⟩]⟩ 5
        { initState with playbackState := .playing, nextStartTime := 3 }).playbackState
      = .loading ∧
    (handleMessage ⟨false, none, some [⟨1⟩]⟩ 5
        { initState with playbackState := .playing, nextStartTime := 3 }).nextStartTime
      = 0 ∧
    (handleMessage ⟨false, none, some [⟨1⟩]⟩ 5
        { initState with playbackState := .playing, nextStartTime := 3 }).scheduled
      = ({ initState with playbackState := .playing, nextStartTime := 3 } : AppState).scheduled :=
  C1_underrun_resets_cursor_and_drops_chunk ⟨false, none, some [⟨1⟩]⟩ 5
    { initState with playbackState := .playing, nextStartTime := 3 } ⟨1⟩ []
    rfl (Or.inl rfl) (by norm_num) (by norm_num)

/-- C3: an audio-chunk message arriving while `playbackState` is `stopped`
or `paused` is discarded: nothing is scheduled, `nextStartTime` and the
playback state are unchanged, and the result does not depend on the chunks
at all (the message is handled as if it carried none). -/
theorem C3_chunks_discarded_when_stopped_or_paused
    (m : ServerMessage) (t : ℚ) (s : AppState)
    (hps : s.playbackState = .paused ∨ s.playbackState = .stopped) :
    (handleMessage m t s).nextStartTime = s.nextStartTime ∧
    (handleMessage m t s).scheduled = s.scheduled ∧
    (handleMessage m t s).playbackState = s.playbackState ∧
    handleMessage m t s = handleMessage { m with audioChunks := none } t s := by
  have hps2 : (applyFiltered m (applySetup m s)).playbackState = .paused ∨
      (applyFiltered m (applySetup m s)).playbackState = .stopped := by
    rw [handleMessage_playbackState_eq m s]; exact hps
  have hdrop : handleMessage m t s = applyFiltered m (applySetup m s) := by
    unfold handleMessage
    exact applyChunks_inactive m t _ hps2
  refine ⟨?_, ?_, ?_, ?_⟩
  · rw [hdrop, handleMessage_nextStartTime_eq]
  · rw [hdrop, handleMessage_scheduled_eq]
  · rw [hdrop, handleMessage_playbackState_eq]
  · rw [hdrop]; rfl

/-- C3 witness: a chunk-bearing message in the `paused` state. -/
theorem C3_witness :
    (handleMessage ⟨true, some ⟨"x", "r"⟩, some [⟨1⟩]⟩ 7
        { initState with playbackState := .paused }).nextStartTime
      = ({ initState with playbackState := .paused } : AppState).nextStartTime ∧
    (handleMessage ⟨true, some ⟨"x", "r"⟩, some [⟨1⟩]⟩ 7
        { initState with playbackState := .paused }).scheduled
      = ({ initState with playbackState := .paused } : AppState).scheduled ∧
    (handleMessage ⟨true, some ⟨"x", "r"⟩, some [⟨1⟩]⟩ 7
        { initState with playbackState := .paused }).playbackState
      = ({ initState with playbackState := .paused } : AppState).playbackState ∧
    handleMessage ⟨true, some ⟨"x", "r"⟩, some [⟨1⟩]⟩ 7
        { initState with playbackState := .paused }
      = handleMessage ⟨true, some ⟨"x", "r"⟩, none⟩ 7
        { initState with playbackState := .paused } :=
  C3_chunks_discarded_when_stopped_or_paused ⟨true, some ⟨"x", "r"⟩, some [⟨1⟩]⟩ 7
    { initState with playbackState := .paused } (Or.inl rfl)

/-- C4 (code): a session error or close event, in any state, sets
`connectionError`, forces a stop (`stopped`, cursor 0), shows the
connection-error toast, attempts no reconnect — but the gain automation of
`stopAudio` sets the gain to 0 at the current time and then ramps it to
**1** (not 0) over 0.1 s, contradicting the claimed ramp-to-0. -/
theorem C4_error_close_stops_but_ramps_gain_to_one (s : AppState) :
    step .sessionError s = step .sessionClose s ∧
    (step .sessionError s).connectionError = true ∧
    (step .sessionError s).playbackState = .stopped ∧
    (step .sessionError s).nextStartTime = 0 ∧
    (step .sessionError s).toasts
      = "Connection error, please restart audio." :: s.toasts ∧
    (step .sessionError s).sessionGen = s.sessionGen ∧
    (step .sessionError s).gainSetValue = 0 ∧
    (step .sessionError s).gainRampTarget = 1 :=
  ⟨rfl, rfl, rfl, rfl, rfl, rfl, rfl, rfl⟩

/-- C10: a message whose `audioChunks` list has more than one entry is
handled exactly like the same message carrying only the first chunk: the
chunks past index 0 are never decoded, scheduled, or otherwise observed. -/
theorem C10_only_first_chunk_processed
    (sc : Bool) (fp : Option FilteredPromptMsg) (c : Chunk) (rest : List Chunk)
    (t : ℚ) (s : AppState) :
    handleMessage ⟨sc, fp, some (c :: rest)⟩ t s
      = handleMessage ⟨sc, fp, some [c]⟩ t s := rfl

/-- C7: the user-prompt part of the payload contains a prompt exactly when
it is in the prompt map with a non-zero weight and a text outside the
filtered set; weight 0 or a filtered text excludes it whatever its other
fields are. -/
theorem C7_payload_excludes_zero_weight_and_filtered
    (prompts : List Prompt) (filtered : List String) (p : Prompt) :
    p ∈ promptsToSend prompts filtered ↔
      p ∈ prompts ∧ p.weight ≠ 0 ∧ p.text ∉ filtered := by
  simp only [promptsToSend, List.mem_filter, List.contains, List.elem_eq_mem,
    Bool.and_eq_true, Bool.not_eq_true', decide_eq_true_eq, decide_eq_false_iff_not]
  tauto

/-- A throttled function fires on no call of a burst whose times all lie
strictly within `delay` of the recorded `lastCall`. -/
theorem throttleFold_quiet (delay : ℤ) (rest : List (ℤ × α)) (lastCall : ℤ)
    (h : ∀ p ∈ rest, p.1 - lastCall < delay) :
    throttleFold delay rest lastCall = [] := by
  induction rest with
  | nil => rfl
  | cons hd tl ih =>
      obtain ⟨now, a⟩ := hd
      have hlt : ¬ delay ≤ now - lastCall :=
        not_le.mpr (h (now, a) (List.mem_cons_self _ _))
      unfold throttleFold
      rw [if_neg hlt]
      exact ih fun p hp => h p (List.mem_cons_of_mem _ hp)

/-- C6: for a burst of calls inside one throttle window — the first call
arriving at least `delay` after the recorded last fire, every later call
strictly less than `delay` after the first — exactly one call reaches the
wrapped function: the call that opens the window, with its arguments. -/
theorem C6_throttle_fires_once_per_window (delay t1 : ℤ) (a1 : α)
    (rest : List (ℤ × α))
    (hopen : delay ≤ t1)
    (hburst : ∀ p ∈ rest, p.1 - t1 < delay) :
    throttleRun delay ((t1, a1) :: rest) = [(t1, a1)] := by
  unfold throttleRun throttleFold
  rw [if_pos (by simpa using hopen), throttleFold_quiet delay rest t1 hburst]

/-- The anchor branch (src lines 1729-1735) followed by the scheduling
branch: the first chunk since a reset anchors the cursor at
`currentTime + bufferTime`, registers the deferred transition to
`playing`, and is itself scheduled at the anchor. -/
theorem processChunk_anchor (dur t : ℚ) (s : AppState)
    (h0 : s.nextStartTime = 0) :
    processChunk dur t s =
      { s with
        scheduled := s.scheduled ++ [(t + bufferTime, dur)]
        nextStartTime := t + bufferTime + dur
        pendingPlayTimers := s.pendingPlayTimers + 1 } := by
  have hnlt : ¬ (t + bufferTime < t) := by
    rw [not_lt, bufferTime]
    linarith
  simp only [processChunk, h0, if_pos, if_true, if_neg hnlt]

/-- Steady-state scheduling: from a positive cursor `a`, a chunk trace
with positive durations and no underrun is scheduled back-to-back from `a`
and advances the cursor by the total duration; nothing else in the state
changes. -/
theorem processChunks_steady (cs : List (ℚ × ℚ)) :
    ∀ (s : AppState) (a : ℚ), s.nextStartTime = a → 0 < a →
      (∀ p ∈ cs, 0 < p.2) → noUnderrunFrom a cs →
      processChunks cs s =
        { s with
          scheduled := s.scheduled ++ backToBack a (cs.map Prod.snd)
          nextStartTime := a + (cs.map Prod.snd).sum } := by
  induction cs with
  | nil =>
      intro s a ha _ _ _
      simp only [processChunks, List.map_nil, backToBack, List.append_nil,
        List.sum_nil, add_zero, ← ha]
  | cons hd tl ih =>
      intro s a ha hpos hall hnou
      obtain ⟨t, d⟩ := hd
      obtain ⟨hta, hnou'⟩ := hnou
      have hd0 : 0 < d := hall (t, d) (List.mem_cons_self _ _)
      have hstep : processChunk d t s =
          { s with
            scheduled := s.scheduled ++ [(a, d)]
            nextStartTime := a + d } := by
        rw [processChunk_schedule d t s
          (by rw [ha]; exact ne_of_gt hpos)
          (by rw [ha]; exact not_lt.mpr hta), ha]
      have htl := ih
        { s with scheduled := s.scheduled ++ [(a, d)], nextStartTime := a + d }
        (a + d) rfl (by linarith)
        (fun p hp => hall p (List.mem_cons_of_mem _ hp)) hnou'
      have hunf : processChunks ((t, d) :: tl) s
          = processChunks tl (processChunk d t s) := rfl
      rw [hunf, hstep, htl]
      simp only [List.map_cons, backToBack, List.sum_cons, List.append_assoc,
        List.singleton_append, add_assoc]

/-- Every interval of a back-to-back schedule starts at or after the
anchor, when durations are nonnegative. -/
theorem backToBack_start_ge (ds : List ℚ) :
    ∀ (a : ℚ), (∀ d ∈ ds, 0 ≤ d) → ∀ x ∈ backToBack a ds, a ≤ x.1 := by
  induction ds with
  | nil => intro a _ x hx; simp [backToBack] at hx
  | cons d ds ih =>
      intro a hds x hx
      rcases List.mem_cons.mp hx with h | h
      · rw [h]
      · have hd : 0 ≤ d := hds d (List.mem_cons_self _ _)
        have := ih (a + d) (fun e he => hds e (List.mem_cons_of_mem _ he)) x h
        linarith
/-- A back-to-back schedule with positive durations has pairwise
non-overlapping intervals: each one ends no later than any later one
starts. -/
theorem backToBack_no_overlap (ds : List ℚ) :
    ∀ (a : ℚ), (∀ d ∈ ds, 0 < d) →
      List.Pairwise (fun x y : ℚ × ℚ => x.1 + x.2 ≤ y.1) (backToBack a ds) := by
  induction ds with
  | nil => intro a _; exact List.Pairwise.nil
  | cons d ds ih =>
      intro a hds
      refine List.Pairwise.cons ?_ (ih (a + d) fun e he => hds e (List.mem_cons_of_mem _ he))
      intro y hy
      exact backToBack_start_ge ds (a + d)
        (fun e he => le_of_lt (hds e (List.mem_cons_of_mem _ he))) y hy

/-- The durations of a back-to-back schedule are the durations scheduled. -/
theorem backToBack_durations (ds : List ℚ) :
    ∀ a : ℚ, (backToBack a ds).map Prod.snd = ds := by
  induction ds with
  | nil => intro a; rfl
  | cons d ds ih => intro a; simp only [backToBack, List.map_cons, ih]

/-- C2: a trace of chunks with no underrun after the first chunk anchors
the cursor at `t1 + bufferTime` is scheduled back-to-back: each chunk
starts exactly at the cursor and advances it by its own duration, the sum
of the scheduled durations is the final cursor minus the anchor, and no
two scheduled intervals overlap. -/
theorem C2_gapless_scheduling
    (t1 d1 : ℚ) (rest : List (ℚ × ℚ)) (s : AppState)
    (h0 : s.nextStartTime = 0) (ht1 : 0 ≤ t1) (hd1 : 0 < d1)
    (hrest : ∀ p ∈ rest, 0 < p.2)
    (hnou : noUnderrunFrom (t1 + bufferTime + d1) rest) :
    processChunks ((t1, d1) :: rest) s =
      { s with
        scheduled := s.scheduled
          ++ backToBack (t1 + bufferTime) (d1 :: rest.map Prod.snd)
        nextStartTime := (t1 + bufferTime) + (d1 :: rest.map Prod.snd).sum
        pendingPlayTimers := s.pendingPlayTimers + 1 } ∧
    ((backToBack (t1 + bufferTime) (d1 :: rest.map Prod.snd)).map Prod.snd).sum
      = ((t1 + bufferTime) + (d1 :: rest.map Prod.snd).sum) - (t1 + bufferTime) ∧
    List.Pairwise (fun x y : ℚ × ℚ => x.1 + x.2 ≤ y.1)
      (backToBack (t1 + bufferTime) (d1 :: rest.map Prod.snd)) := by
  have hbuf : (0 : ℚ) < bufferTime := by rw [bufferTime]; norm_num
  have hanchor : 0 < t1 + bufferTime := by linarith
  refine ⟨?_, ?_, ?_⟩
  · have hfirst := processChunk_anchor d1 t1 s h0
    have hsteady := processChunks_steady rest
      { s with
        scheduled := s.scheduled ++ [(t1 + bufferTime, d1)]
        nextStartTime := t1 + bufferTime + d1
        pendingPlayTimers := s.pendingPlayTimers + 1 }
      (t1 + bufferTime + d1) rfl (by linarith) hrest hnou
    have hunf : processChunks ((t1, d1) :: rest) s
        = processChunks rest (processChunk d1 t1 s) := rfl
    rw [hunf, hfirst, hsteady]
    simp only [backToBack, List.sum_cons, List.append_assoc,
      List.singleton_append, add_assoc]
  · rw [backToBack_durations]; ring
  · refine backToBack_no_overlap _ _ ?_
    intro e he
    rcases List.mem_cons.mp he with h | h
    · rw [h]; exact hd1
    · obtain ⟨p, hp, hpe⟩ := List.mem_map.mp h
      rw [← hpe]; exact hrest p hp

/-- C2 witness: three chunks of durations 1, 1/2, 2 arriving at times 0,
1, 2 with the anchor at 2: scheduled `(2,1) (3,1/2) (3.5,2)`, final cursor
11/2, total scheduled duration 11/2 − 2, intervals non-overlapping. -/
theorem C2_witness :
    processChunks [((0 : ℚ), (1 : ℚ)), (1, 1/2), (2, 2)] initState =
      { initState with
        scheduled := [((2 : ℚ), (1 : ℚ)), (3, 1/2), (7/2, 2)]
        nextStartTime := 11/2
        pendingPlayTimers := 1 } ∧
    ((backToBack (0 + bufferTime)
        ((1 : ℚ) :: ([((1 : ℚ), (1/2 : ℚ)), (2, 2)].map Prod.snd))).map Prod.snd).sum
      = ((0 + bufferTime)
          + ((1 : ℚ) :: ([((1 : ℚ), (1/2 : ℚ)), (2, 2)].map Prod.snd)).sum)
        - (0 + bufferTime) ∧
    List.Pairwise (fun x y : ℚ × ℚ => x.1 + x.2 ≤ y.1)
      (backToBack (0 + bufferTime)
        ((1 : ℚ) :: ([((1 : ℚ), (1/2 : ℚ)), (2, 2)].map Prod.snd))) := by
  have h := C2_gapless_scheduling 0 1 [(1, 1/2), (2, 2)] initState rfl
    (by norm_num) (by norm_num)
    (by
      intro p hp
      simp only [List.mem_cons, List.mem_singleton, List.not_mem_nil, or_false] at hp
      rcases hp with rfl | rfl <;> norm_num)
    (by norm_num [noUnderrunFrom, bufferTime])
  refine ⟨?_, h.2.1, h.2.2⟩
  rw [h.1]
  norm_num [initState, bufferTime, backToBack]

/-- C6 witness: interval 200 ms, 10 synchronous calls spread over 45 ms
(times 1000, 1005, …, 1045): only the first fires, with its arguments. -/
theorem C6_witness :
    throttleRun 200
      [(1000, 0), (1005, 1), (1010, 2), (1015, 3), (1020, 4), (1025, 5),
        (1030, 6), (1035, 7), (1040, 8), (1045, 9)]
      = [((1000 : ℤ), (0 : ℕ))] :=
  C6_throttle_fires_once_per_window 200 1000 0
    [(1005, 1), (1010, 2), (1015, 3), (1020, 4), (1025, 5),
      (1030, 6), (1035, 7), (1040, 8), (1045, 9)]
    (by decide) (by decide)

/-- The string component of the `forEach` accumulator: the seed followed by
the clauses of the active tracks in order. -/
theorem seqDescAux_fst (grid : List (List Nat)) :
    ∀ (i : Nat) (d : String) (c : Nat),
      (seqDescAux grid i d c).1 = d ++ activeClauses grid i := by
  induction grid with
  | nil => intro i d c; simp [seqDescAux, activeClauses]
  | cons tr rest ih =>
      intro i d c
      by_cases h : trackActive tr
      · simp only [seqDescAux, activeClauses, if_pos h, ih, String.append_assoc]
      · simp only [seqDescAux, activeClauses, if_neg h, ih, String.empty_append]

/-- The counter component of the `forEach` accumulator: the seed plus the
number of active tracks. -/
theorem seqDescAux_snd (grid : List (List Nat)) :
    ∀ (i : Nat) (c : Nat),
      ∀ d : String, (seqDescAux grid i d c).2 = c + grid.countP trackActive := by
  induction grid with
  | nil => intro i c d; simp [seqDescAux]
  | cons tr rest ih =>
      intro i c d
      by_cases h : trackActive tr
      · rw [seqDescAux, if_pos h, ih, List.countP_cons_of_pos _ _ h]
        omega
      · rw [seqDescAux, if_neg h, ih, List.countP_cons_of_neg _ _ (by simp [h])]

/-- With a non-zero weight and at least one active track, the generated
prompt text is the preamble followed by the active tracks' clauses. -/
theorem generateSequencerPrompt_eq (grid : List (List Nat)) (w : ℚ)
    (hw : w ≠ 0) (hc : grid.countP trackActive ≠ 0) :
    generateSequencerPrompt grid w
      = "A brutal heavy bass and percussion track. " ++ activeClauses grid 0 := by
  unfold generateSequencerPrompt
  rw [if_neg hw]
  simp only [seqDescAux_fst, seqDescAux_snd, Nat.zero_add]
  rw [if_neg hc]

/-- With weight 0 or no active track, the generated prompt text is empty. -/
theorem generateSequencerPrompt_empty (grid : List (List Nat)) (w : ℚ)
    (h : w = 0 ∨ grid.countP trackActive = 0) :
    generateSequencerPrompt grid w = "" := by
  unfold generateSequencerPrompt
  rcases h with h | h
  · rw [if_pos h]
  · by_cases hw : w = 0
    · rw [if_pos hw]
    · rw [if_neg hw]
      simp only [seqDescAux_snd, Nat.zero_add]
      rw [if_pos h]

/-- The preamble makes the generated text non-empty whatever follows it. -/
theorem preamble_append_ne_empty (x : String) :
    "A brutal heavy bass and percussion track. " ++ x ≠ "" := by
  intro hx
  have h1 := congrArg String.length hx
  rw [String.length_append] at h1
  have h2 : ("A brutal heavy bass and percussion track. ").length = 42 := rfl
  have h3 : ("" : String).length = 0 := rfl
  rw [h2, h3] at h1
  omega

/-- C8: the synthetic `prompt-sequencer` entry is appended to the payload
exactly when the sequencer weight is positive and some track has an active
step; when present it carries the sequencer weight and the fixed preamble
followed by one instrument clause per active track, in track order. -/
theorem C8_sequencer_prompt_iff_active_and_weighted
    (grid : List (List Nat)) (w : ℚ) :
    (sequencerPart grid w ≠ [] ↔ 0 < w ∧ grid.any trackActive = true) ∧
    (0 < w → grid.any trackActive = true →
      sequencerPart grid w =
        [{ promptId := "prompt-sequencer", color := "#ff0044",
           text := "A brutal heavy bass and percussion track. "
             ++ activeClauses grid 0,
           weight := w }]) := by
  have hcount : grid.countP trackActive ≠ 0 ↔ grid.any trackActive = true := by
    rw [Ne, List.countP_eq_zero, List.any_eq_true]
    push_neg
    constructor
    · rintro ⟨a, ha, hp⟩; exact ⟨a, ha, by simpa using hp⟩
    · rintro ⟨a, ha, hp⟩; exact ⟨a, ha, by simpa using hp⟩
  constructor
  · constructor
    · intro hne
      by_cases hcond :
          generateSequencerPrompt grid w ≠ "" ∧ 0 < w
      · refine ⟨hcond.2, ?_⟩
        rw [← hcount]
        intro hc0
        exact hcond.1 (generateSequencerPrompt_empty grid w (Or.inr hc0))
      · exact absurd (by unfold sequencerPart; rw [if_neg hcond]) hne
    · rintro ⟨hw, hact⟩
      have htxt := generateSequencerPrompt_eq grid w (ne_of_gt hw)
        (hcount.mpr hact)
      unfold sequencerPart
      rw [if_pos ⟨by rw [htxt]; exact preamble_append_ne_empty _, hw⟩]
      simp
  · intro hw hact
    have htxt := generateSequencerPrompt_eq grid w (ne_of_gt hw)
      (hcount.mpr hact)
    unfold sequencerPart
    rw [if_pos ⟨by rw [htxt]; exact preamble_append_ne_empty _, hw⟩, htxt]

/-- C8 witness: the kick-only 6×16 grid at weight 4/5 yields exactly the
synthetic prompt with the kick clause. -/
theorem C8_witness :
    sequencerPart seqGridKick (4/5) =
      [{ promptId := "prompt-sequencer", color := "#ff0044",
         text := "A brutal heavy bass and percussion track. It features a prominent kick drum. ",
         weight := 4/5 }] := by
  have h := (C8_sequencer_prompt_iff_active_and_weighted seqGridKick (4/5)).2
    (by norm_num) (by decide)
  rw [h]
  rfl

/-- `processChunk` either keeps the playback state or moves it to
`loading` (underrun). -/
theorem processChunk_playbackState_cases (dur t : ℚ) (s : AppState) :
    (processChunk dur t s).playbackState = s.playbackState ∨
    (processChunk dur t s).playbackState = .loading := by
  simp only [processChunk]
  split_ifs <;> simp

/-- The chunk block either keeps the playback state or moves it to
`loading`. -/
theorem applyChunks_playbackState_cases (m : ServerMessage) (t : ℚ) (s : AppState) :
    (applyChunks m t s).playbackState = s.playbackState ∨
    (applyChunks m t s).playbackState = .loading := by
  unfold applyChunks
  cases hm : m.audioChunks with
  | none => exact Or.inl rfl
  | some chunks =>
      cases chunks with
      | nil =>
          left
          show (if s.playbackState = .paused ∨ s.playbackState = .stopped
            then s else s).playbackState = s.playbackState
          split <;> rfl
      | cons c cs =>
          show (if s.playbackState = .paused ∨ s.playbackState = .stopped
              then s else processChunk c.duration t s).playbackState
              = s.playbackState ∨
            (if s.playbackState = .paused ∨ s.playbackState = .stopped
              then s else processChunk c.duration t s).playbackState = .loading
          by_cases hg : s.playbackState = .paused ∨ s.playbackState = .stopped
          · rw [if_pos hg]; exact Or.inl rfl
          · rw [if_neg hg]; exact processChunk_playbackState_cases c.duration t s

/-- A server message either keeps the playback state or moves it to
`loading`. -/
theorem handleMessage_playbackState_cases (m : ServerMessage) (t : ℚ) (s : AppState) :
    (handleMessage m t s).playbackState = s.playbackState ∨
    (handleMessage m t s).playbackState = .loading := by
  unfold handleMessage
  rcases applyChunks_playbackState_cases m t (applyFiltered m (applySetup m s)) with h | h
  · left; rw [h, handleMessage_playbackState_eq]
  · right; exact h

/-- A server message arriving while stopped leaves the machine stopped. -/
theorem handleMessage_playbackState_of_stopped (m : ServerMessage) (t : ℚ)
    (s : AppState) (h : s.playbackState = .stopped) :
    (handleMessage m t s).playbackState = .stopped := by
  have h2 : (applyFiltered m (applySetup m s)).playbackState = .stopped := by
    rw [handleMessage_playbackState_eq]; exact h
  unfold handleMessage
  rw [applyChunks_inactive m t _ (Or.inr h2)]
  exact h2

theorem step_promptChanged_playbackState (id text : String) (w : ℚ) (s : AppState) :
    (step (.promptChanged id text w) s).playbackState = s.playbackState := by
  simp only [step]
  split <;> rfl

theorem step_promptRemoved_playbackState (id : String) (s : AppState) :
    (step (.promptRemoved id) s).playbackState = s.playbackState := by
  simp only [step]
  split <;> rfl

/-- C5 counterexample to the claim as stated: a reachable trace — play,
one chunk (which anchors the cursor and registers the deferred `setTimeout`
to `playing`), then a session error forcing `stopped` — after which the
pending timer fires with no user action and moves the machine from
`stopped` straight to `playing`. -/
theorem C5_counterexample :
    (run [Event.playPause, Event.message ⟨false, none, some [⟨1⟩]⟩ 0,
        Event.sessionError] initState).playbackState = .stopped ∧
    (run [Event.playPause, Event.message ⟨false, none, some [⟨1⟩]⟩ 0,
        Event.sessionError, Event.timerFire] initState).playbackState
      = .playing := by
  have h2 : step (Event.message ⟨false, none, some [⟨1⟩]⟩ 0)
      (step Event.playPause initState)
      = processChunk 1 0 (step Event.playPause initState) := by
    show handleMessage _ 0 _ = _
    unfold handleMessage
    have ha : applySetup ⟨false, none, some [⟨1⟩]⟩ (step Event.playPause initState)
        = step Event.playPause initState := rfl
    have hb : applyFiltered ⟨false, none, some [⟨1⟩]⟩ (step Event.playPause initState)
        = step Event.playPause initState := rfl
    rw [ha, hb]
    exact applyChunks_cons _ 0 _ ⟨1⟩ [] rfl (by decide)
  have h3 := processChunk_anchor 1 0 (step Event.playPause initState) rfl
  constructor
  · show (step Event.sessionError _).playbackState = .stopped
    rfl
  · show (step Event.timerFire (step Event.sessionError
      (step (Event.message ⟨false, none, some [⟨1⟩]⟩ 0)
        (step Event.playPause initState)))).playbackState = .playing
    rw [h2, h3]
    rfl

/-- C5 amended: from `stopped` the machine is left only by user play, by a
pending deferred anchor timer firing, or by a failed prompt send; from
`playing` only by user pause, session error/close, a failed prompt send,
or a message that underruns (moving it to `loading`). -/
theorem C5_amended_transitions (e : Event) (s : AppState) :
    (s.playbackState = .stopped → (step e s).playbackState ≠ .stopped →
      e = .playPause ∨ e = .timerFire ∨ (∃ msg, e = .sendFail msg)) ∧
    (s.playbackState = .playing → (step e s).playbackState ≠ .playing →
      e = .playPause ∨ e = .sessionError ∨ e = .sessionClose ∨
        (∃ msg, e = .sendFail msg) ∨
        (∃ m t, e = .message m t ∧ (step e s).playbackState = .loading)) ∧
    (s.playbackState = .stopped → (step .playPause s).playbackState = .loading) ∧
    (s.playbackState = .playing → (step .playPause s).playbackState = .paused) := by
  refine ⟨?_, ?_, ?_, ?_⟩
  · intro hst hne
    cases e with
    | message m t => exact absurd (handleMessage_playbackState_of_stopped m t s hst) hne
    | sessionError => exact absurd rfl hne
    | sessionClose => exact absurd rfl hne
    | playPause => exact Or.inl rfl
    | timerFire =>
        exact Or.inr (Or.inl rfl)
    | sendFail msg => exact Or.inr (Or.inr ⟨msg, rfl⟩)
    | promptChanged id text w =>
        exact absurd ((step_promptChanged_playbackState id text w s).trans hst) hne
    | promptRemoved id =>
        exact absurd ((step_promptRemoved_playbackState id s).trans hst) hne
    | promptAdded id text color => exact absurd (hst ▸ rfl) hne
    | sequencerChanged grid w => exact absurd (hst ▸ rfl) hne
  · intro hpl hne
    cases e with
    | message m t =>
        rcases handleMessage_playbackState_cases m t s with h | h
        · exact absurd (h.trans hpl) hne
        · exact Or.inr (Or.inr (Or.inr (Or.inr ⟨m, t, rfl, h⟩)))
    | sessionError => exact Or.inr (Or.inl rfl)
    | sessionClose => exact Or.inr (Or.inr (Or.inl rfl))
    | playPause => exact Or.inl rfl
    | timerFire =>
        refine absurd ?_ hne
        simp only [step]
        split
        · exact hpl
        · rfl
    | sendFail msg => exact Or.inr (Or.inr (Or.inr (Or.inl ⟨msg, rfl⟩)))
    | promptChanged id text w =>
        exact absurd ((step_promptChanged_playbackState id text w s).trans hpl) hne
    | promptRemoved id =>
        exact absurd ((step_promptRemoved_playbackState id s).trans hpl) hne
    | promptAdded id text color => exact absurd (hpl ▸ rfl) hne
    | sequencerChanged grid w => exact absurd (hpl ▸ rfl) hne
  · intro hst
    show (handlePlayPause s).playbackState = .loading
    unfold handlePlayPause
    rw [if_neg (by simp [hst]), if_pos (Or.inr hst)]
    rfl
  · intro hpl
    show (handlePlayPause s).playbackState = .paused
    unfold handlePlayPause
    rw [if_pos hpl]
    rfl

/-- C5 amended witness: a failed prompt send in the `stopped` state moves
the machine to `paused`, and the theorem classifies it. -/
theorem C5_amended_witness :
    Event.sendFail "quota exceeded" = Event.playPause ∨
    Event.sendFail "quota exceeded" = Event.timerFire ∨
    (∃ msg, Event.sendFail "quota exceeded" = Event.sendFail msg) :=
  (C5_amended_transitions (Event.sendFail "quota exceeded") initState).1
    rfl (by decide)

theorem processChunk_filteredPrompts (dur t : ℚ) (s : AppState) :
    (processChunk dur t s).filteredPrompts = s.filteredPrompts := by
  simp only [processChunk]
  split_ifs <;> simp

theorem applyChunks_filteredPrompts (m : ServerMessage) (t : ℚ) (s : AppState) :
    (applyChunks m t s).filteredPrompts = s.filteredPrompts := by
  unfold applyChunks
  cases hm : m.audioChunks with
  | none => rfl
  | some chunks =>
      cases chunks with
      | nil =>
          show (if s.playbackState = .paused ∨ s.playbackState = .stopped
            then s else s).filteredPrompts = s.filteredPrompts
          split <;> rfl
      | cons c cs =>
          show (if s.playbackState = .paused ∨ s.playbackState = .stopped
            then s else processChunk c.duration t s).filteredPrompts
            = s.filteredPrompts
          by_cases hg : s.playbackState = .paused ∨ s.playbackState = .stopped
          · rw [if_pos hg]
          · rw [if_neg hg]; exact processChunk_filteredPrompts c.duration t s

theorem applySetup_filteredPrompts (m : ServerMessage) (s : AppState) :
    (applySetup m s).filteredPrompts = s.filteredPrompts := by
  unfold applySetup; split <;> rfl

/-- C9 amended: across every event of the component — server messages
(including `filteredPrompt` additions), session errors, play/pause (with
its lazy reconnect), timer fires, failed sends, and every prompt/sequencer
edit — the filtered-prompt set only grows; in particular no event, not
even a reconnect, removes an entry. -/
theorem C9_filtered_set_only_grows (e : Event) (s : AppState) (x : String)
    (hx : x ∈ s.filteredPrompts) : x ∈ (step e s).filteredPrompts := by
  cases e with
  | message m t =>
      show x ∈ (handleMessage m t s).filteredPrompts
      unfold handleMessage
      rw [applyChunks_filteredPrompts]
      unfold applyFiltered
      cases hf : m.filteredPrompt with
      | none => rw [applySetup_filteredPrompts]; exact hx
      | some fp =>
          show x ∈ ((applySetup m s).filteredPrompts.insert fp.text)
          exact List.mem_insert_of_mem ((applySetup_filteredPrompts m s).symm ▸ hx)
  | sessionError => exact hx
  | sessionClose => exact hx
  | playPause =>
      show x ∈ (handlePlayPause s).filteredPrompts
      unfold handlePlayPause
      split_ifs <;> exact hx
  | timerFire =>
      show x ∈ (step Event.timerFire s).filteredPrompts
      simp only [step]
      split <;> exact hx
  | sendFail msg => exact hx
  | promptChanged id text w =>
      show x ∈ (step (Event.promptChanged id text w) s).filteredPrompts
      simp only [step]
      split <;> exact hx
  | promptRemoved id =>
      show x ∈ (step (Event.promptRemoved id) s).filteredPrompts
      simp only [step]
      split <;> exact hx
  | promptAdded id text color => exact hx
  | sequencerChanged grid w => exact hx

/-- C9 amended witness: a flagged text survives a `filteredPrompt` event
adding another one. -/
theorem C9_witness :
    "loud noises" ∈ (step (Event.message ⟨false, some ⟨"bad", "r"⟩, none⟩ 0)
      flaggedState).filteredPrompts :=
  C9_filtered_set_only_grows (Event.message ⟨false, some ⟨"bad", "r"⟩, none⟩ 0)
    flaggedState "loud noises" (by decide)

/-- C9 counterexample to the claim as stated: reconnecting does not clear
the filtered set.  With the connection flagged broken and one filtered
text recorded, the user's play action calls `connectToSession` again (the
session handle generation increases) yet the filtered set is unchanged. -/
theorem C9_counterexample :
    (step Event.playPause flaggedState).sessionGen
      = flaggedState.sessionGen + 1 ∧
    (step Event.playPause flaggedState).filteredPrompts = ["loud noises"] :=
  ⟨rfl, rfl⟩

end FrontendSG
